import Mathlib

/-!
Verification of the twscrape `imap.py` module: a shallow embedding of its
domain resolver, timeout configuration, message scanner, username extraction,
poll loop and login routine, together with theorems about the behaviour of
these functions.

Python strings are modelled as `List Char` (ASCII fragment: `lower`, `strip`,
`\w` and whitespace are modelled on their ASCII behaviour, which covers every
string constant appearing in the module). Mutable global state (the
`IMAP_MAPPING` dict) is modelled by explicit state passing. Python exceptions
are modelled with `Option` / explicit error values.
-/

/-- Python strings, modelled as lists of characters. -/
abbrev Str := List Char

/-- Python `pat in s` (substring test): `listStarts pat s` holds when `pat`
is an initial segment of `s`. -/
def listStarts : Str → Str → Bool
  | [], _ => true
  | _ :: _, [] => false
  | p :: ps, c :: cs => p = c && listStarts ps cs

/-- Python `pat in s`: `pat` occurs contiguously somewhere in `s`. -/
def occursIn (pat : Str) : Str → Bool
  | [] => listStarts pat []
  | c :: cs => listStarts pat (c :: cs) || occursIn pat cs

/-- Python `s.lower()` (ASCII). -/
def strLower (s : Str) : Str := s.map Char.toLower

/-- Python `s.strip()` (ASCII whitespace). -/
def pyStrip (s : Str) : Str :=
  ((s.dropWhile Char.isWhitespace).reverse.dropWhile Char.isWhitespace).reverse

/-- Python `s.split(sep)` for a single-character separator `sep`:
splits at every occurrence, keeping empty pieces; `"".split(sep) == [""]`. -/
def splitOnChar (sep : Char) : Str → List Str
  | [] => [[]]
  | c :: cs =>
    if c = sep then [] :: splitOnChar sep cs
    else
      match splitOnChar sep cs with
      | [] => [[c]]
      | h :: t => (c :: h) :: t

/-- Python `int(s)` on a decimal literal: optional surrounding whitespace,
optional sign, then a nonempty run of ASCII digits; `none` models the
`ValueError` raised otherwise. -/
def pyInt (s : Str) : Option Int :=
  let t := pyStrip s
  match t with
  | '-' :: ds =>
    if ds ≠ [] ∧ ds.all Char.isDigit then
      some (-(Int.ofNat (ds.foldl (fun a c => a * 10 + (c.toNat - 48)) 0)))
    else none
  | '+' :: ds =>
    if ds ≠ [] ∧ ds.all Char.isDigit then
      some (Int.ofNat (ds.foldl (fun a c => a * 10 + (c.toNat - 48)) 0))
    else none
  | ds =>
    if ds ≠ [] ∧ ds.all Char.isDigit then
      some (Int.ofNat (ds.foldl (fun a c => a * 10 + (c.toNat - 48)) 0))
    else none

/-! ## Domain Resolver (`IMAP_MAPPING`, `add_imap_mapping`, `_get_imap_domain`)

The global dict `IMAP_MAPPING : dict[str, str]` is modelled as an association
list threaded explicitly; `add_imap_mapping` prepends, and lookup takes the
first hit, so a later `add_imap_mapping` for the same key shadows an earlier
entry, exactly as assignment into a dict does. -/

/-- Dict lookup: value of the most recent write for the key, if any. -/
def tableLookup (t : List (Str × Str)) (k : Str) : Option Str :=
  match t with
  | [] => none
  | (k', v) :: rest => if k' = k then some v else tableLookup rest k

/-- The seeded `IMAP_MAPPING` table from the source. -/
def IMAP_MAPPING : List (Str × Str) :=
  [ ("yahoo.com".toList, "imap.mail.yahoo.com".toList),
    ("icloud.com".toList, "imap.mail.me.com".toList),
    ("outlook.com".toList, "imap-mail.outlook.com".toList),
    ("hotmail.com".toList, "imap-mail.outlook.com".toList),
    ("proton.me".toList, "127.0.0.1:1143".toList) ]

/-- Source `add_imap_mapping(email_domain, imap_domain)`: writes the pair into the
shared table (last write for a key wins under `tableLookup`). -/
def add_imap_mapping (t : List (Str × Str)) (email_domain imap_domain : Str) :
    List (Str × Str) :=
  (email_domain, imap_domain) :: t

/-- Source `_get_imap_domain(email)`: `email.split("@")[1]`, then the override table,
else `"imap." + domain`. `none` models the `IndexError` raised by `[1]` when
the address contains no `@`. -/
def _get_imap_domain (t : List (Str × Str)) (email : Str) : Option Str :=
  match (splitOnChar '@' email).get? 1 with
  | none => none
  | some d =>
    match tableLookup t d with
    | some v => some v
    | none => some ("imap.".toList ++ d)

/-! ## Timeout configuration (`TWS_WAIT_EMAIL_CODE`)

`TWS_WAIT_EMAIL_CODE = [os.getenv("TWS_WAIT_EMAIL_CODE"), os.getenv("LOGIN_CODE_TIMEOUT"), 30]`
`TWS_WAIT_EMAIL_CODE = [int(x) for x in TWS_WAIT_EMAIL_CODE if x is not None][0]`

The two `os.getenv` results are the parameters (`none` = variable unset). The
comprehension converts every retained element with `int` before `[0]` is
taken; a `ValueError` from any conversion is modelled as `none`. -/

/-- Python `int(x)` applied to a list element: a string goes through `pyInt`,
the literal `30` is already an int. -/
def intOfEntry : Str ⊕ Int → Option Int
  | Sum.inl s => pyInt s
  | Sum.inr n => some n

/-- The comprehension body `[int(x) for x in ...]`: every element is
converted; any `ValueError` fails the whole list. -/
def intAll : List (Str ⊕ Int) → Option (List Int)
  | [] => some []
  | x :: xs =>
    match intOfEntry x, intAll xs with
    | some n, some l => some (n :: l)
    | _, _ => none

/-- The computed timeout value: first non-`None` source, converted with
`int`; `none` models an exception escaping the module initialiser. -/
def TWS_WAIT_EMAIL_CODE (provider generic : Option Str) : Option Int :=
  let lst : List (Option (Str ⊕ Int)) :=
    [provider.map Sum.inl, generic.map Sum.inl, some (Sum.inr 30)]
  let kept := lst.filterMap id
  (intAll kept).bind List.head?

/-! ## Message model and username extraction (`_extract_username`)

An email message's content (`email.message.Message`) is either a single
plain-text payload or a multipart message; `msg.walk()` over a multipart
message is modelled as the flat list of its parts in walk order, each with its
content type, the string form of its `Content-Disposition` header (`"None"`
when the header is absent, as `str(None)` yields), and its decoded payload. -/

/-- One body part as seen by `msg.walk()`. -/
structure MsgPart where
  ctype : Str
  cdispo : Str
  payload : Str
deriving DecidableEq, Repr

/-- A message's content: not multipart (single decoded payload) or multipart
(the parts yielded by `walk`). -/
inductive PyMessage where
  | single (body : Str)
  | multi (parts : List MsgPart)
deriving DecidableEq, Repr

/-- The test of the source's part loop: content type `text/plain` and
`'attachment' not in cdispo`. -/
def isPlainNonAttachment (p : MsgPart) : Bool :=
  p.ctype = "text/plain".toList && !(occursIn "attachment".toList p.cdispo)

/-- Python `\w` of `re` on ASCII: letters, digits, underscore. -/
def isWordChar (c : Char) : Bool := c.isAlphanum || c = '_'

/-- Python `re.search(r"to log in to your account @(\w+)", body)`, returning group 1:
leftmost position where the literal prefix matches and is followed by at
least one word character; the capture is the maximal word-character run. -/
def reSearchHandle : Str → Option Str
  | [] => none
  | c :: cs =>
    if listStarts ("to log in to your account @".toList) (c :: cs) then
      let rest := (c :: cs).drop ("to log in to your account @".toList).length
      let w := rest.takeWhile isWordChar
      if w.isEmpty then reSearchHandle cs else some w
    else reSearchHandle cs

/-- The body selected by `_extract_username`'s part loop: `body` starts as
`""` and is overwritten by the decoded payload of every `text/plain`
non-attachment part, with no break, so the last such part's payload remains. -/
def selectedBody (parts : List MsgPart) : Str :=
  parts.foldl (fun acc p => if isPlainNonAttachment p then p.payload else acc) []

/-- Source `_extract_username(msg)`: pick the body (per the part loop for multipart,
the whole decoded payload otherwise) and search it for the handle pattern. -/
def _extract_username : PyMessage → Option Str
  | PyMessage.single body => reSearchHandle body
  | PyMessage.multi parts => reSearchHandle (selectedBody parts)

/-! ## Message Scanner (`_wait_email_code`)

A fetched message, after header parsing: the `From` and `Subject` header
strings, the timestamp parsed from the `Date` header (datetimes are modelled
by `Int`, preserving their total order), and the message content. The reply
`rep` of `imap.fetch(str(i), "(RFC822)")` is a list whose tuple elements
carry a message and whose other elements are skipped by the
`isinstance(x, tuple)` test; it is modelled as a `List (Option Msg)`
(`some` = tuple). A mailbox is a function from sequence number to reply. -/

/-- A parsed message. -/
structure Msg where
  fromHdr : Str
  subjHdr : Str
  time : Int
  content : PyMessage
deriving DecidableEq, Repr

/-- The result dataclass `EmailCodeResult(code, username)`. -/
structure EmailCodeResult where
  code : Str
  username : Option Str
deriving DecidableEq, Repr

/-- Outcome of processing one message inside the scan loops: `stop` models
the `return None` on a stale message, `foundR` the `return EmailCodeResult`,
`cont` falling through to the next element. -/
inductive ScanStep where
  | stop
  | foundR (r : EmailCodeResult)
  | cont
deriving DecidableEq, Repr

/-- The per-message body of `_wait_email_code`'s inner loop: lowercase the
`From` and `Subject` headers; if a cutoff is set and the message time is
strictly earlier, stop the scan; if the sender contains `info@x.com` and the
subject contains `confirmation code is` (both on the lowercased strings),
return the code — the last piece of the lowercased subject split on `" "`,
stripped — with the username extracted from the body. -/
def procMsg (min_t : Option Int) (m : Msg) : ScanStep :=
  let msg_from := strLower m.fromHdr
  let msg_subj := strLower m.subjHdr
  if (match min_t with | some c => decide (m.time < c) | none => false) then
    ScanStep.stop
  else if occursIn "info@x.com".toList msg_from &&
      occursIn "confirmation code is".toList msg_subj then
    ScanStep.foundR
      ⟨pyStrip ((splitOnChar ' ' msg_subj).getLastD []), _extract_username m.content⟩
  else ScanStep.cont

/-- Source `for x in rep:` — process the tuple elements of one fetch reply in order,
propagating the first `stop` or `foundR`. -/
def procRep (min_t : Option Int) : List (Option Msg) → ScanStep
  | [] => ScanStep.cont
  | none :: rest => procRep min_t rest
  | some m :: rest =>
    match procMsg min_t m with
    | ScanStep.cont => procRep min_t rest
    | s => s

/-- Source `for i in range(count, 0, -1):` — scan sequence numbers from `i` down
to `1`, fetching each reply; `none` is the fall-through `return None`. -/
def scanFrom (fetch : Nat → List (Option Msg)) (min_t : Option Int) :
    Nat → Option EmailCodeResult
  | 0 => none
  | i + 1 =>
    match procRep min_t (fetch (i + 1)) with
    | ScanStep.stop => none
    | ScanStep.foundR r => some r
    | ScanStep.cont => scanFrom fetch min_t i

/-- Source `_wait_email_code(imap, count, min_t)`. -/
def _wait_email_code (fetch : Nat → List (Option Msg)) (count : Nat)
    (min_t : Option Int) : Option EmailCodeResult :=
  scanFrom fetch min_t count

/-! ## Poll Loop (`imap_get_email_code`)

One loop iteration selects INBOX, computes the message count, and runs
`_wait_email_code`; its observable outcome is abstracted per iteration:
`raised e` — any exception thrown inside the iteration (from `select`, the
count parse, or fetch/header parsing inside the scan) — `found r` — the scan
returned a result — or `notFound`. `elapsed` is the value of
`time.time() - start_time` at the iteration's deadline check. The whole call
is run on a finite list of iterations; `none` means the loop was still
running when the list ran out. The `except` clause performs
`imap.select("INBOX"); imap.close()` and re-raises, so the run records how
many times that reset-then-close sequence executed. -/

/-- Observable outcome of one loop iteration. -/
inductive IterOutcome where
  | raised (e : Str)
  | found (r : EmailCodeResult)
  | notFound
deriving DecidableEq, Repr

/-- One loop iteration: its outcome and the elapsed wall-clock time at the
deadline check. -/
structure PollIter where
  out : IterOutcome
  elapsed : Int
deriving DecidableEq, Repr

/-- How `imap_get_email_code` hands control back to the caller. -/
inductive PollExit where
  | success (r : EmailCodeResult)
  | timeoutE (msg : Str)
  | failure (e : Str)
deriving DecidableEq, Repr

/-- A finished run: the exit and the number of times the reset-then-close
sequence (`select INBOX` then `close`) ran before control returned. -/
structure PollRun where
  exitR : PollExit
  resetClose : Nat
deriving DecidableEq, Repr

/-- The f-string of the timeout error:
`f"Email code timeout ({TWS_WAIT_EMAIL_CODE} sec)"`. -/
def timeoutMsg (t : Int) : Str :=
  "Email code timeout (".toList ++ (toString t).toList ++ " sec)".toList

/-- The `try` block's `while True` loop: a raised exception or a found result
exits at once; on `notFound` the deadline check `timeout < elapsed` either
raises `EmailCodeTimeoutError` or the loop sleeps and runs the next
iteration. -/
def pollSteps (timeout : Int) : List PollIter → Option PollExit
  | [] => none
  | it :: rest =>
    match it.out with
    | IterOutcome.raised e => some (PollExit.failure e)
    | IterOutcome.found r => some (PollExit.success r)
    | IterOutcome.notFound =>
      if timeout < it.elapsed then some (PollExit.timeoutE (timeoutMsg timeout))
      else pollSteps timeout rest

/-- Source `imap_get_email_code`: the `try` block around the loop. A `return`
leaves the function directly (no cleanup runs); any exception — the timeout
error included — is caught once, the reset-then-close sequence runs, and the
same error object is re-raised. -/
def imap_get_email_code (timeout : Int) (iters : List PollIter) :
    Option PollRun :=
  (pollSteps timeout iters).map fun ex =>
    match ex with
    | PollExit.success r => ⟨PollExit.success r, 0⟩
    | PollExit.timeoutE m => ⟨PollExit.timeoutE m, 1⟩
    | PollExit.failure e => ⟨PollExit.failure e, 1⟩

/-! ## Login (`imap_login`)

The connection is opened from the resolved domain: `IMAP4(host, port)` when
the domain contains `:` (the unpacking `host, port = domain.split(":")`
raises when the split does not give exactly two pieces, modelled as `none`),
`IMAP4_SSL(domain)` otherwise. The collaborator's behaviour inside the `try`
is a parameter: the login (and subsequent select) either succeeds or raises
`imaplib.IMAP4.error` with some cause. -/

/-- The opened connection. -/
inductive Conn where
  | plain (host port : Str)
  | ssl (host : Str)
deriving DecidableEq, Repr

/-- A logged-in session as `imap_login` returns it: its connection and the
mailbox selected with `readonly=True`. -/
structure ImapSession where
  conn : Conn
  mailbox : Str
  readonly : Bool
deriving DecidableEq, Repr

/-- Source `EmailLoginError`: default message `"Email login error"`; `cause` is the
`__cause__` installed by `raise ... from e`. -/
structure EmailLoginError where
  message : Str
  cause : Option Str
deriving DecidableEq, Repr

/-- What the mail server does with the credentials. -/
inductive LoginOutcome where
  | ok
  | rejected (cause : Str)
deriving DecidableEq, Repr

/-- Connection construction from the resolved domain. -/
def connFor (domain : Str) : Option Conn :=
  if occursIn ":".toList domain then
    match splitOnChar ':' domain with
    | [host, port] => some (Conn.plain host port)
    | _ => none
  else some (Conn.ssl domain)

/-- Source `imap_login(email, password)`: resolve the domain, open the connection,
then `login` and `select("INBOX", readonly=True)`; an `imaplib.IMAP4.error`
is wrapped as `EmailLoginError() from e` without any retry. The outer
`Option` models exceptions outside the `try` (`IndexError` from the resolver,
a failed unpacking). -/
def imap_login (email : Str) (outcome : LoginOutcome) :
    Option (Except EmailLoginError ImapSession) :=
  match _get_imap_domain IMAP_MAPPING email with
  | none => none
  | some domain =>
    match connFor domain with
    | none => none
    | some c =>
      match outcome with
      | LoginOutcome.rejected cause =>
        some (Except.error ⟨"Email login error".toList, some cause⟩)
      | LoginOutcome.ok => some (Except.ok ⟨c, "INBOX".toList, true⟩)

/-! ## Spec-side definitions

Two definitions written from the specification's words, for comparison with
the source-derived functions above. -/

/-- Modelled from the spec: the handle is matched against the FIRST
`text/plain` part not marked as an attachment ("walking parts and selecting
the first `text/plain` part not marked as an attachment"). -/
def extractUsernameFirstSpec : PyMessage → Option Str
  | PyMessage.single body => reSearchHandle body
  | PyMessage.multi parts =>
    reSearchHandle (((parts.filter isPlainNonAttachment).head?.map
      MsgPart.payload).getD [])

/-- Modelled from the spec: "the last whitespace-delimited token of the
subject line" — Python `s.split()` semantics: split on runs of whitespace,
empty tokens dropped — taking the last token (`[]` when there is none). -/
def lastWhitespaceToken (s : Str) : Str :=
  ((s.splitOnP Char.isWhitespace).filter (fun t => ¬t.isEmpty)).getLastD []

/-! ## Helper lemmas -/

/-- The function `splitOnChar` never returns the empty list. -/
lemma splitOnChar_ne_nil (sep : Char) (l : Str) : splitOnChar sep l ≠ [] := by
  cases l with
  | nil => simp [splitOnChar]
  | cons c cs =>
    unfold splitOnChar
    by_cases h : c = sep
    · simp [h]
    · simp only [h, if_false]
      cases splitOnChar sep cs <;> simp

/-- The first piece of a split is the longest separator-free initial
segment. -/
lemma head_splitOnChar (sep : Char) (l : Str) :
    (splitOnChar sep l).head? = some (l.takeWhile (fun c => c ≠ sep)) := by
  induction l with
  | nil => simp [splitOnChar, List.takeWhile]
  | cons c cs ih =>
    unfold splitOnChar
    by_cases h : c = sep
    · subst h; simp [List.takeWhile]
    · simp only [h, if_false]
      rcases heq : splitOnChar sep cs with _ | ⟨hd, tl⟩
      · exact absurd heq (splitOnChar_ne_nil sep cs)
      · rw [heq] at ih
        simp at ih
        simp [List.takeWhile, h, ih]

/-- Splitting a separator-free string gives one piece. -/
lemma splitOnChar_no_sep (sep : Char) (l : Str) (h : sep ∉ l) :
    splitOnChar sep l = [l] := by
  induction l with
  | nil => simp [splitOnChar]
  | cons c cs ih =>
    simp at h
    have hne : ¬c = sep := fun hc => h.1 hc.symm
    unfold splitOnChar
    simp only [if_neg hne]
    rw [ih h.2]

/-- Splitting at the first separator occurrence. -/
lemma splitOnChar_append (sep : Char) (a b : Str) (h : sep ∉ a) :
    splitOnChar sep (a ++ sep :: b) = a :: splitOnChar sep b := by
  induction a with
  | nil => simp [splitOnChar]
  | cons c a' ih =>
    simp at h
    have hne : ¬c = sep := fun hc => h.1 hc.symm
    simp only [List.cons_append, splitOnChar, if_neg hne, List.append_eq]
    rw [ih h.2]

/-- A pattern is found at the front of itself plus anything. -/
lemma listStarts_append_self (p s : Str) : listStarts p (p ++ s) = true := by
  induction p with
  | nil => simp [listStarts]
  | cons c cs ih => simp [listStarts, ih]

/-- A successful anchored match gives a successful search. -/
lemma occursIn_of_starts (p s : Str) (h : listStarts p s = true) :
    occursIn p s = true := by
  cases s with
  | nil => simpa [occursIn] using h
  | cons c cs => simp [occursIn, h]

/-- Searching is stable under prepending. -/
lemma occursIn_append_left (p a s : Str) (h : occursIn p s = true) :
    occursIn p (a ++ s) = true := by
  induction a with
  | nil => simpa
  | cons c a' ih => simp [occursIn, ih]

/-! ## Claim theorems: Domain Resolver and configuration -/

/-- C10: `_get_imap_domain` is only defined for addresses with at least one
`@`: the domain used is the text between the first and the second `@` (to the
end when there is exactly one), and an address with no `@` raises an
`IndexError` (modelled by `none`) instead of returning an endpoint. -/
theorem get_imap_domain_requires_at (t : List (Str × Str)) (email : Str) :
    ('@' ∉ email → _get_imap_domain t email = none) ∧
    (∀ a b : Str, email = a ++ '@' :: b → '@' ∉ a →
      _get_imap_domain t email =
        some ((tableLookup t (b.takeWhile (fun c => c ≠ '@'))).getD
          ("imap.".toList ++ b.takeWhile (fun c => c ≠ '@')))) := by
  constructor
  · intro h
    unfold _get_imap_domain
    rw [splitOnChar_no_sep '@' email h]
    rfl
  · intro a b heq ha
    subst heq
    unfold _get_imap_domain
    rw [splitOnChar_append '@' a b ha]
    have hhead : (splitOnChar '@' b).head? = some (b.takeWhile (fun c => c ≠ '@')) :=
      head_splitOnChar '@' b
    rcases hsplit : splitOnChar '@' b with _ | ⟨hd, tl⟩
    · exact absurd hsplit (splitOnChar_ne_nil '@' b)
    · rw [hsplit] at hhead
      simp at hhead
      simp only [List.get?, hhead]
      rcases htl : tableLookup t (List.takeWhile (fun c => !decide (c = '@')) b)
        with _ | v <;> simp [htl]

/-- Witness for C10 at concrete addresses: no `@` raises; with two `@` the
middle segment is the domain. -/
theorem get_imap_domain_requires_at_witness :
    _get_imap_domain IMAP_MAPPING "abc".toList = none ∧
    _get_imap_domain IMAP_MAPPING "a@b@c".toList = some ("imap.b".toList) := by
  constructor
  · exact (get_imap_domain_requires_at IMAP_MAPPING "abc".toList).1 (by decide)
  · have h := (get_imap_domain_requires_at IMAP_MAPPING "a@b@c".toList).2
      "a".toList "b@c".toList (by decide) (by decide)
    rw [h]; decide

/-- C8: for an address containing `@`, `_get_imap_domain` splits at `@`,
returns the override-table entry for the domain when present, else
`"imap." + domain`; in particular the yahoo override and the unknown-domain
fallback behave as stated. -/
theorem get_imap_domain_resolves (email d : Str)
    (hd : (splitOnChar '@' email).get? 1 = some d) :
    _get_imap_domain IMAP_MAPPING email =
      some ((tableLookup IMAP_MAPPING d).getD ("imap.".toList ++ d)) ∧
    _get_imap_domain IMAP_MAPPING "user@yahoo.com".toList =
      some ("imap.mail.yahoo.com".toList) ∧
    _get_imap_domain IMAP_MAPPING "user@unknown-domain.test".toList =
      some ("imap.unknown-domain.test".toList) := by
  refine ⟨?_, by decide, by decide⟩
  unfold _get_imap_domain
  rw [hd]
  rcases htl : tableLookup IMAP_MAPPING d with _ | v <;> simp [htl]

/-- Witness for C8 at `user@yahoo.com`. -/
theorem get_imap_domain_resolves_witness :
    _get_imap_domain IMAP_MAPPING "user@yahoo.com".toList =
      some ("imap.mail.yahoo.com".toList) :=
  (get_imap_domain_resolves "user@yahoo.com".toList "yahoo.com".toList
    (by decide)).2.1

/-- C9: after `add_imap_mapping domain endpoint`, resolving any address of
that domain returns that endpoint; a later write for the same domain
overwrites it (last write wins); a write for a different domain leaves it in
place — the effect persists across all later resolutions of the resulting
table. -/
theorem add_imap_mapping_register (t : List (Str × Str)) (d v u : Str)
    (hu : '@' ∉ u) (hd : '@' ∉ d) :
    _get_imap_domain (add_imap_mapping t d v) (u ++ '@' :: d) = some v ∧
    (∀ w, _get_imap_domain (add_imap_mapping (add_imap_mapping t d v) d w)
      (u ++ '@' :: d) = some w) ∧
    (∀ d' v', d' ≠ d →
      _get_imap_domain (add_imap_mapping (add_imap_mapping t d v) d' v')
        (u ++ '@' :: d) = some v) := by
  have hsplit : splitOnChar '@' (u ++ '@' :: d) = [u, d] := by
    rw [splitOnChar_append '@' u d hu, splitOnChar_no_sep '@' d hd]
  refine ⟨?_, fun w => ?_, fun d' v' hne => ?_⟩
  · unfold _get_imap_domain
    rw [hsplit]
    simp [add_imap_mapping, tableLookup]
  · unfold _get_imap_domain
    rw [hsplit]
    simp [add_imap_mapping, tableLookup]
  · unfold _get_imap_domain
    rw [hsplit]
    simp [add_imap_mapping, tableLookup, hne]

/-- Witness for C9: registering `example.com → imap.example.com:993` on top
of the seeded table and resolving, overwriting, and writing an unrelated
domain. -/
theorem add_imap_mapping_register_witness :
    _get_imap_domain (add_imap_mapping IMAP_MAPPING "example.com".toList
      "imap.example.com:993".toList) ("a".toList ++ '@' :: "example.com".toList) =
      some ("imap.example.com:993".toList) ∧
    _get_imap_domain (add_imap_mapping (add_imap_mapping IMAP_MAPPING
      "example.com".toList "imap.example.com:993".toList) "example.com".toList
      "other:1".toList) ("a".toList ++ '@' :: "example.com".toList) =
      some ("other:1".toList) := by
  have h := add_imap_mapping_register IMAP_MAPPING "example.com".toList
    "imap.example.com:993".toList "a".toList (by decide) (by decide)
  exact ⟨h.1, h.2.1 "other:1".toList⟩

/-- C7: the timeout is sourced in priority order — provider-specific
override, then generic override, then the default 30 — the first set source
winning (each set source converted with `int`). -/
theorem tws_wait_email_code_priority (sp sg : Str) (np ng : Int)
    (hp : pyInt sp = some np) (hg : pyInt sg = some ng) :
    TWS_WAIT_EMAIL_CODE (some sp) (some sg) = some np ∧
    TWS_WAIT_EMAIL_CODE (some sp) none = some np ∧
    TWS_WAIT_EMAIL_CODE none (some sg) = some ng ∧
    TWS_WAIT_EMAIL_CODE none none = some 30 := by
  refine ⟨?_, ?_, ?_, by decide⟩ <;>
    simp [TWS_WAIT_EMAIL_CODE, intAll, intOfEntry, hp, hg]

/-- Witness for C7 with the overrides set to `"45"` and `"60"`. -/
theorem tws_wait_email_code_priority_witness :
    TWS_WAIT_EMAIL_CODE (some ("45".toList)) (some ("60".toList)) = some 45 ∧
    TWS_WAIT_EMAIL_CODE none (some ("60".toList)) = some 60 ∧
    TWS_WAIT_EMAIL_CODE none none = some 30 := by
  have h := tws_wait_email_code_priority "45".toList "60".toList 45 60
    (by decide) (by decide)
  exact ⟨h.1, h.2.2.1, h.2.2.2⟩

/-- C6: when the server rejects the credentials, `imap_login` raises
`EmailLoginError` (default message) carrying the underlying cause, with no
retry; when the login succeeds it selects INBOX in read-only mode and
returns the session. -/
theorem imap_login_behaviour (email d : Str) (c : Conn) (outcome : LoginOutcome)
    (hd : _get_imap_domain IMAP_MAPPING email = some d)
    (hc : connFor d = some c) :
    (∀ cause, outcome = LoginOutcome.rejected cause →
      imap_login email outcome =
        some (Except.error ⟨"Email login error".toList, some cause⟩)) ∧
    (outcome = LoginOutcome.ok →
      imap_login email outcome =
        some (Except.ok ⟨c, "INBOX".toList, true⟩)) := by
  constructor
  · intro cause hout
    subst hout
    unfold imap_login
    simp [hd, hc]
  · intro hout
    subst hout
    unfold imap_login
    simp [hd, hc]

/-- Witness for C6 at `u@gmail.com`: a rejected credential and a successful
login. -/
theorem imap_login_behaviour_witness :
    imap_login "u@gmail.com".toList (LoginOutcome.rejected "AUTH failed".toList) =
      some (Except.error ⟨"Email login error".toList, some ("AUTH failed".toList)⟩) ∧
    imap_login "u@gmail.com".toList LoginOutcome.ok =
      some (Except.ok ⟨Conn.ssl ("imap.gmail.com".toList), "INBOX".toList, true⟩) := by
  constructor
  · exact (imap_login_behaviour "u@gmail.com".toList "imap.gmail.com".toList
      (Conn.ssl ("imap.gmail.com".toList)) (LoginOutcome.rejected "AUTH failed".toList)
      (by decide) (by decide)).1 "AUTH failed".toList rfl
  · exact (imap_login_behaviour "u@gmail.com".toList "imap.gmail.com".toList
      (Conn.ssl ("imap.gmail.com".toList)) LoginOutcome.ok
      (by decide) (by decide)).2 rfl

/-! ## Claim theorems: Message Scanner and username extraction -/

/-- When every reply above the stale index is a pass and the reply at the
stale index stops the scan, the downward scan returns nothing, whatever the
replies below the stale index hold. -/
lemma scanFrom_none_of_stale (fetch : Nat → List (Option Msg)) (c : Int)
    (i : Nat) (hi1 : 1 ≤ i) :
    ∀ count, i ≤ count →
    (∀ j, i < j → j ≤ count → procRep (some c) (fetch j) = ScanStep.cont) →
    procRep (some c) (fetch i) = ScanStep.stop →
    scanFrom fetch (some c) count = none := by
  intro count
  induction count with
  | zero => intro h; omega
  | succ k ih =>
    intro hik hnewer hstale
    by_cases hk : i = k + 1
    · subst hk
      simp [scanFrom, hstale]
    · have hcont : procRep (some c) (fetch (k + 1)) = ScanStep.cont :=
        hnewer (k + 1) (by omega) (le_refl _)
      have : scanFrom fetch (some c) (k + 1) = scanFrom fetch (some c) k := by
        simp [scanFrom, hcont]
      rw [this]
      exact ih (by omega) (fun j h1 h2 => hnewer j h1 (by omega)) hstale

/-- C3: the scanner iterates sequence numbers from `count` down to `1`
(fourth conjunct: the recursion examines `n + 1` before `n`); a message stops
the scan exactly when its timestamp is strictly earlier than the cutoff
(third conjunct); and when the messages above index `i` neither match nor
are stale while the message at `i` is stale, the scan returns `none` — and
does so for any mailbox agreeing at the indices `≥ i`, so a matching message
older than the cutoff position is never examined or returned. -/
theorem wait_email_code_newest_first_cutoff
    (fetch fetch' : Nat → List (Option Msg)) (c : Int) (count i : Nat)
    (hi1 : 1 ≤ i) (hi2 : i ≤ count)
    (hagree : ∀ j, i ≤ j → fetch' j = fetch j)
    (hnewer : ∀ j, i < j → j ≤ count → procRep (some c) (fetch j) = ScanStep.cont)
    (hstale : procRep (some c) (fetch i) = ScanStep.stop) :
    _wait_email_code fetch count (some c) = none ∧
    _wait_email_code fetch' count (some c) = none ∧
    (∀ m : Msg, procMsg (some c) m = ScanStep.stop ↔ m.time < c) ∧
    (∀ n : Nat, _wait_email_code fetch (n + 1) (some c) =
      match procRep (some c) (fetch (n + 1)) with
      | ScanStep.stop => none
      | ScanStep.foundR r => some r
      | ScanStep.cont => _wait_email_code fetch n (some c)) := by
  refine ⟨?_, ?_, ?_, fun n => rfl⟩
  · exact scanFrom_none_of_stale fetch c i hi1 count hi2 hnewer hstale
  · refine scanFrom_none_of_stale fetch' c i hi1 count hi2 ?_ ?_
    · intro j h1 h2
      rw [hagree j (by omega)]
      exact hnewer j h1 h2
    · rw [hagree i (le_refl i)]
      exact hstale
  · intro m
    unfold procMsg
    by_cases hm : m.time < c
    · simp [hm]
    · simp only [hm, decide_False, Bool.false_eq_true, if_false, iff_false]
      split <;> simp

/-- The concrete mailbox for the C3 witness: index 3 fresh and non-matching,
index 2 stale (and even matching — staleness is checked first), index 1 a
fresh matching message that must never be reached. -/
def cexFetch : Nat → List (Option Msg)
  | 1 => [some ⟨"info@x.com".toList, "your x confirmation code is 111".toList,
            10, PyMessage.single []⟩]
  | 2 => [some ⟨"info@x.com".toList, "your x confirmation code is 999".toList,
            40, PyMessage.single []⟩]
  | 3 => [some ⟨"other@y.com".toList, "hello".toList, 100, PyMessage.single []⟩]
  | _ => []

/-- The same mailbox with the entries below the stale index removed. -/
def cexFetchAbove : Nat → List (Option Msg)
  | 2 => [some ⟨"info@x.com".toList, "your x confirmation code is 999".toList,
            40, PyMessage.single []⟩]
  | 3 => [some ⟨"other@y.com".toList, "hello".toList, 100, PyMessage.single []⟩]
  | _ => []

/-- Witness for C3: with cutoff 50 over `cexFetch`, the scan stops at the
stale index 2 and returns nothing, even though index 1 holds a fresh-looking
match; agreeing mailboxes at indices `≥ 2` scan identically. -/
theorem wait_email_code_newest_first_cutoff_witness :
    _wait_email_code cexFetch 3 (some 50) = none ∧
    _wait_email_code cexFetchAbove 3 (some 50) = none := by
  have h := wait_email_code_newest_first_cutoff cexFetch cexFetchAbove 50 3 2
    (by omega) (by omega)
    (by
      intro j hj
      match j, hj with
      | 2, _ => rfl
      | 3, _ => rfl
      | n + 4, _ => rfl)
    (by
      intro j h1 h2
      interval_cases j
      decide)
    (by decide)
  exact ⟨h.1, h.2.1⟩

/-- The part loop's fold keeps the payload of the last matching part,
whatever the accumulator started as. -/
lemma foldl_selected_payload (parts : List MsgPart) : ∀ acc : Str,
    parts.foldl (fun acc p => if isPlainNonAttachment p then p.payload else acc)
      acc =
    ((parts.filter isPlainNonAttachment).map MsgPart.payload).getLastD acc := by
  induction parts with
  | nil => intro acc; rfl
  | cons p ps ih =>
    intro acc
    by_cases hp : isPlainNonAttachment p
    · simp only [List.foldl_cons, if_pos hp, List.filter_cons_of_pos hp,
        List.map_cons, List.getLastD_cons]
      exact ih p.payload
    · simp only [List.foldl_cons, if_neg hp, List.filter_cons_of_neg hp]
      exact ih acc

/-- C4 amended: for a multipart message, the handle is matched against the
payload of the LAST `text/plain` part not marked as an attachment (the empty
body when no part qualifies) — the part loop overwrites `body` on every
match and never breaks. -/
theorem extract_username_uses_last_plain_part (parts : List MsgPart) :
    _extract_username (PyMessage.multi parts) =
      reSearchHandle
        (((parts.filter isPlainNonAttachment).map MsgPart.payload).getLastD []) := by
  have h : _extract_username (PyMessage.multi parts) =
      reSearchHandle (selectedBody parts) := rfl
  rw [h]
  unfold selectedBody
  rw [foldl_selected_payload parts []]

/-- Counterexample to C4 as stated: two qualifying `text/plain` parts, the
first containing the handle pattern, the second not; the code extracts from
the second (finding nothing) while first-part selection — modelled by
`extractUsernameFirstSpec` from the spec's words — finds `alice`. -/
theorem extract_username_first_part_counterexample :
    _extract_username (PyMessage.multi
      [⟨"text/plain".toList, "None".toList,
          "please to log in to your account @alice now".toList⟩,
        ⟨"text/plain".toList, "None".toList, "nothing here".toList⟩]) = none ∧
    extractUsernameFirstSpec (PyMessage.multi
      [⟨"text/plain".toList, "None".toList,
          "please to log in to your account @alice now".toList⟩,
        ⟨"text/plain".toList, "None".toList, "nothing here".toList⟩]) =
      some ("alice".toList) := by
  decide

/-- C5 amended: a non-stale message whose lowercased sender contains
`info@x.com` and whose lowercased subject contains `confirmation code is`
makes the scan return a result whose code is the last piece of the
LOWERCASED subject split on single spaces, stripped; on the all-digit
example subject this is `482917`, the subject's last token. -/
theorem wait_email_code_code_token (fetch : Nat → List (Option Msg)) (m : Msg)
    (min_t : Option Int) (hfetch : fetch 1 = [some m])
    (hfresh : ∀ c, min_t = some c → ¬m.time < c)
    (hfrom : occursIn ("info@x.com".toList) (strLower m.fromHdr) = true)
    (hsubj : occursIn ("confirmation code is".toList) (strLower m.subjHdr) = true) :
    _wait_email_code fetch 1 min_t =
      some ⟨pyStrip ((splitOnChar ' ' (strLower m.subjHdr)).getLastD []),
        _extract_username m.content⟩ ∧
    pyStrip ((splitOnChar ' '
      (strLower ("Your X confirmation code is 482917".toList))).getLastD []) =
      "482917".toList := by
  refine ⟨?_, by decide⟩
  unfold _wait_email_code scanFrom
  rw [hfetch]
  unfold procRep procMsg
  cases min_t with
  | none => simp_all
  | some c =>
    have hf := hfresh c rfl
    simp_all
    rw [if_neg (show ¬m.time < c by omega)]

/-- Witness for C5 (amended) on the spec's own example message. -/
theorem wait_email_code_code_token_witness :
    _wait_email_code
      (fun _ => [some ⟨"info@x.com".toList,
        "Your X confirmation code is 482917".toList, 100, PyMessage.single []⟩])
      1 none = some ⟨"482917".toList, none⟩ := by
  have h := wait_email_code_code_token
    (fun _ => [some ⟨"info@x.com".toList,
      "Your X confirmation code is 482917".toList, 100, PyMessage.single []⟩])
    ⟨"info@x.com".toList, "Your X confirmation code is 482917".toList, 100,
      PyMessage.single []⟩
    none rfl (by intro c hc; cases hc) (by decide) (by decide)
  rw [h.1]
  decide

/-- Counterexample to C5 as stated: a matching subject ending in an
upper-case token. The scanner returns the lowercased token `ab12`, while the
last whitespace-delimited token of the subject line is `AB12`. -/
theorem wait_email_code_code_token_counterexample :
    _wait_email_code
      (fun _ => [some ⟨"info@x.com".toList,
        "Your X confirmation code is AB12".toList, 100, PyMessage.single []⟩])
      1 none = some ⟨"ab12".toList, none⟩ ∧
    lastWhitespaceToken ("Your X confirmation code is AB12".toList) =
      "AB12".toList ∧
    ("ab12".toList : Str) ≠ "AB12".toList := by
  refine ⟨by decide, ?_, by decide⟩
  decide

/-! ## Claim theorems: Poll Loop -/

/-- C1 amended: the reset-then-close sequence runs exactly once before the
error propagates on the error exit paths (timeout raised or an exception
propagating from fetch/parse), and zero times on the success path — the
`return` leaves the `try` block without triggering the `except` cleanup. -/
theorem imap_get_email_code_cleanup (timeout : Int) (iters : List PollIter)
    (run : PollRun) (h : imap_get_email_code timeout iters = some run) :
    run.resetClose =
      (match run.exitR with
        | PollExit.success _ => 0
        | PollExit.timeoutE _ => 1
        | PollExit.failure _ => 1) ∧
    ((∃ m, run.exitR = PollExit.timeoutE m) ∨
        (∃ e, run.exitR = PollExit.failure e) → run.resetClose = 1) ∧
    (∀ r, run.exitR = PollExit.success r → run.resetClose = 0) := by
  unfold imap_get_email_code at h
  rcases hps : pollSteps timeout iters with _ | ex
  · rw [hps] at h
    cases h
  · rw [hps] at h
    simp at h
    cases ex <;> (cases h; simp)

/-- Witness for C1 (amended) on a run that times out after one scan. -/
theorem imap_get_email_code_cleanup_witness :
    (⟨PollExit.timeoutE (timeoutMsg 30), 1⟩ : PollRun).resetClose =
      (match (⟨PollExit.timeoutE (timeoutMsg 30), 1⟩ : PollRun).exitR with
        | PollExit.success _ => 0
        | PollExit.timeoutE _ => 1
        | PollExit.failure _ => 1) :=
  (imap_get_email_code_cleanup 30 [⟨IterOutcome.notFound, 31⟩]
    ⟨PollExit.timeoutE (timeoutMsg 30), 1⟩ (by decide)).1

/-- Counterexample to C1 as stated: a poll operation whose first scan finds
the code returns the result with the reset-then-close sequence performed
zero times, not exactly once. -/
theorem imap_get_email_code_cleanup_counterexample :
    imap_get_email_code 30
      [⟨IterOutcome.found ⟨"482917".toList, none⟩, 0⟩] =
      some ⟨PollExit.success ⟨"482917".toList, none⟩, 0⟩ ∧
    (some (⟨PollExit.success ⟨"482917".toList, none⟩, 0⟩ : PollRun) ≠
      some ⟨PollExit.success ⟨"482917".toList, none⟩, 1⟩) := by
  decide

/-- C2: when no scan ever matches (every iteration's outcome is `notFound`),
the call returns — rather than looping on — exactly when some iteration's
elapsed wall-clock time strictly exceeds the timeout, and then it raises the
timeout error built by `timeoutMsg` (whose text contains the configured
timeout value) with the session reset-and-closed exactly once before the
error propagates; the propagated error is the constructed one, unchanged. -/
theorem imap_get_email_code_timeout (timeout : Int) (iters : List PollIter)
    (hnf : ∀ it ∈ iters, it.out = IterOutcome.notFound) :
    ((imap_get_email_code timeout iters).isSome ↔
      ∃ it ∈ iters, timeout < it.elapsed) ∧
    (∀ run, imap_get_email_code timeout iters = some run →
      run.exitR = PollExit.timeoutE (timeoutMsg timeout) ∧
      run.resetClose = 1) ∧
    occursIn (toString timeout).toList (timeoutMsg timeout) = true := by
  refine ⟨?_, ?_, ?_⟩
  · unfold imap_get_email_code
    rw [Option.isSome_map']
    induction iters with
    | nil => simp [pollSteps]
    | cons it rest ih =>
      have hit : it.out = IterOutcome.notFound := hnf it (List.mem_cons_self it rest)
      have hrest : ∀ x ∈ rest, x.out = IterOutcome.notFound := fun x hx =>
        hnf x (List.mem_cons_of_mem it hx)
      unfold pollSteps
      rw [hit]
      by_cases hel : timeout < it.elapsed
      · simp [hel]
      · simp only [if_neg hel]
        rw [ih hrest]
        simp [hel]
  · intro run hrun
    unfold imap_get_email_code at hrun
    induction iters with
    | nil => simp [pollSteps] at hrun
    | cons it rest ih =>
      have hit : it.out = IterOutcome.notFound := hnf it (List.mem_cons_self it rest)
      have hrest : ∀ x ∈ rest, x.out = IterOutcome.notFound := fun x hx =>
        hnf x (List.mem_cons_of_mem it hx)
      unfold pollSteps at hrun
      rw [hit] at hrun
      by_cases hel : timeout < it.elapsed
      · rw [if_pos hel] at hrun
        simp at hrun
        simp [← hrun]
      · rw [if_neg hel] at hrun
        exact ih hrest hrun
  · unfold timeoutMsg
    rw [List.append_assoc]
    exact occursIn_append_left _ _ _
      (occursIn_of_starts _ _ (listStarts_append_self _ _))

/-- Witness for C2: timeout 30, two fruitless scans, the second past the
deadline. -/
theorem imap_get_email_code_timeout_witness :
    (⟨PollExit.timeoutE (timeoutMsg 30), 1⟩ : PollRun).exitR =
      PollExit.timeoutE (timeoutMsg 30) ∧
    (⟨PollExit.timeoutE (timeoutMsg 30), 1⟩ : PollRun).resetClose = 1 :=
  (imap_get_email_code_timeout 30
    [⟨IterOutcome.notFound, 10⟩, ⟨IterOutcome.notFound, 31⟩] (by decide)).2.1
    ⟨PollExit.timeoutE (timeoutMsg 30), 1⟩ (by decide)
